import Mathlib

/-!
Shallow embedding of the mindflow flow-editor
(`src/frontend/src/components/FlowEditor/FlowEditor.tsx` together with the
shared type declarations of `src/unnamed/part_001`), and proofs about its
save / load / clear / add-node / connect operations.

The editor keeps two pieces of React state, `nodes` and `edges`, a
module-level counter `nodeId`, and persists through the single
localStorage slot `mindflow-data`.  JavaScript runtime values that flow
through `JSON.stringify` / `JSON.parse` are embedded as the inductive
type `JVal`; JS numbers appearing in this component are embedded as `Int`
(JSON serialization of finite doubles round-trips exactly, and no claim
depends on fractional coordinate values, which enter only through
`Math.random`, modelled as an oracle input to `addNode`).
-/

namespace Mindflow

/-- A JSON-representable JavaScript value (result of `JSON.parse`, input of
`JSON.stringify`).  Objects are key/value lists; the documents built by this
component have pairwise distinct keys. -/
inductive JVal where
  | null
  | bool (b : Bool)
  | num (n : Int)
  | str (s : String)
  | arr (xs : List JVal)
  | obj (kvs : List (String × JVal))

/-- A persisted localStorage string, classified by whether `JSON.parse`
accepts it.  `JSON.parse` and `JSON.stringify` are platform functions, not
repository code: they are modelled by their contract — `stringify` always
yields a parseable string whose parse is the original structure, and
`parse` throws a `SyntaxError` exactly on non-JSON strings. -/
inductive Blob where
  | ok (doc : JVal)
  | malformed (s : String)

/-- `position : {x, y}` of a React-Flow node (FlowEditor.tsx nodes). -/
structure Pos where
  x : Int
  y : Int
deriving DecidableEq

/-- `data : {title, content}` of a React-Flow node (FlowEditor.tsx nodes). -/
structure NodeData where
  title : String
  content : String
deriving DecidableEq

/-- Runtime shape of the nodes this component creates
(`initialNodes` and `addNode` in FlowEditor.tsx):
`{id, type, position: {x, y}, data: {title, content}}`. -/
structure NodeT where
  id : String
  type : String
  position : Pos
  data : NodeData
deriving DecidableEq

/-- Runtime shape of the edges `addEdge` (from `@xyflow/react`) creates:
`{source, sourceHandle?, target, targetHandle?, id}`.  `addEdge` deletes
`sourceHandle` / `targetHandle` keys that are `null`, so `none` models an
absent handle key. -/
structure EdgeT where
  id : String
  source : String
  target : String
  sourceHandle : Option String
  targetHandle : Option String
deriving DecidableEq

/-- The two React state variables of `FlowEditor`. -/
structure EditorState where
  nodes : List NodeT
  edges : List EdgeT
deriving DecidableEq

/-- JS truthiness of a `JVal` (arrays and objects are always truthy;
`NaN` does not arise from this component). -/
def truthy : JVal → Bool
  | .null => false
  | .bool b => b
  | .num n => n != 0
  | .str s => s != ""
  | .arr _ => true
  | .obj _ => true

/-- `flowData.k || []` for an object `flowData` (loadFlow lines 80–81):
a missing key reads as `undefined` (falsy), and any falsy value is
replaced by the empty array. -/
def fieldOrEmpty (kvs : List (String × JVal)) (k : String) : JVal :=
  match kvs.lookup k with
  | some v => if truthy v then v else .arr []
  | none => .arr []

/-- `JSON.stringify` image of one node object (key order as in `addNode`). -/
def nodeJson (n : NodeT) : JVal :=
  .obj [("id", .str n.id), ("type", .str n.type),
        ("position", .obj [("x", .num n.position.x), ("y", .num n.position.y)]),
        ("data", .obj [("title", .str n.data.title), ("content", .str n.data.content)])]

/-- `JSON.stringify` image of one edge object; `addEdge` deletes null
handle keys before the edge is stored, so `none` handles produce no key. -/
def edgeJson (e : EdgeT) : JVal :=
  .obj ([("source", .str e.source)]
    ++ (match e.sourceHandle with | some h => [("sourceHandle", .str h)] | none => [])
    ++ [("target", .str e.target)]
    ++ (match e.targetHandle with | some h => [("targetHandle", .str h)] | none => [])
    ++ [("id", .str e.id)])

/-- The document `saveFlow` persists: `{ nodes, edges }` (FlowEditor.tsx
lines 67–74). -/
def saveDoc (st : EditorState) : JVal :=
  .obj [("nodes", .arr (st.nodes.map nodeJson)),
        ("edges", .arr (st.edges.map edgeJson))]

/-- The blob `saveFlow` writes to `localStorage` under `mindflow-data`. -/
def saveBlob (st : EditorState) : Blob :=
  .ok (saveDoc st)

/-- Reading one node object back from a parsed document.  The component
itself performs no decoding (`setNodes(flowData.nodes || [])` trusts the
blob); this function is the typing boundary of the embedding, defined to
accept exactly the images of `nodeJson`. -/
def decodeNode (v : JVal) : Option NodeT :=
  match v with
  | .obj kvs =>
    match kvs.lookup "id", kvs.lookup "type", kvs.lookup "position", kvs.lookup "data" with
    | some (.str i), some (.str t), some (.obj pos), some (.obj d) =>
      match pos.lookup "x", pos.lookup "y", d.lookup "title", d.lookup "content" with
      | some (.num x), some (.num y), some (.str ti), some (.str co) =>
        some ⟨i, t, ⟨x, y⟩, ⟨ti, co⟩⟩
      | _, _, _, _ => none
    | _, _, _, _ => none
  | _ => none

/-- Reading an optional handle key back: absent or `null` both mean no
handle (React Flow treats them alike). -/
def decodeHandle : Option JVal → Option (Option String)
  | none => some none
  | some .null => some none
  | some (.str s) => some (some s)
  | some _ => none

/-- Reading one edge object back from a parsed document (typing boundary,
see `decodeNode`). -/
def decodeEdge (v : JVal) : Option EdgeT :=
  match v with
  | .obj kvs =>
    match kvs.lookup "id", kvs.lookup "source", kvs.lookup "target" with
    | some (.str i), some (.str s), some (.str t) =>
      match decodeHandle (kvs.lookup "sourceHandle"), decodeHandle (kvs.lookup "targetHandle") with
      | some sh, some th => some ⟨i, s, t, sh, th⟩
      | _, _ => none
    | _, _, _ => none
  | _ => none

def decodeNodeList : List JVal → Option (List NodeT)
  | [] => some []
  | v :: vs =>
    match decodeNode v, decodeNodeList vs with
    | some n, some ns => some (n :: ns)
    | _, _ => none

def decodeEdgeList : List JVal → Option (List EdgeT)
  | [] => some []
  | v :: vs =>
    match decodeEdge v, decodeEdgeList vs with
    | some e, some es => some (e :: es)
    | _, _ => none

def decodeNodes : JVal → Option (List NodeT)
  | .arr vs => decodeNodeList vs
  | _ => none

def decodeEdges : JVal → Option (List EdgeT)
  | .arr vs => decodeEdgeList vs
  | _ => none

/-- Outcome of `loadFlow` (FlowEditor.tsx lines 76–84).
`noop`: `localStorage.getItem` returned `null` and the guard skipped the body.
`loaded st`: `setNodes` / `setEdges` were called with the document's
collections.  `threw`: an exception escaped (`JSON.parse` on a malformed
blob, or property access on a parsed `null`) before any state was set.
`untyped`: the code would call `setNodes` / `setEdges` with values outside
the node/edge shapes of this embedding (the component does not validate);
such blobs are never written by this component. -/
inductive LoadResult where
  | noop
  | loaded (st : EditorState)
  | threw
  | untyped
deriving DecidableEq

/-- The body of `loadFlow` applied to a successfully parsed document.
A parsed `null` throws a `TypeError` at `flowData.nodes`; any other
non-object parses to `undefined` fields, so both collections default
to `[]`. -/
def loadDoc (doc : JVal) : LoadResult :=
  match doc with
  | .null => .threw
  | .obj kvs =>
    match decodeNodes (fieldOrEmpty kvs "nodes"), decodeEdges (fieldOrEmpty kvs "edges") with
    | some ns, some es => .loaded ⟨ns, es⟩
    | _, _ => .untyped
  | _ => .loaded ⟨[], []⟩

/-- `loadFlow` as a function of the `mindflow-data` localStorage slot. -/
def loadFlow : Option Blob → LoadResult
  | none => .noop
  | some (.malformed _) => .threw
  | some (.ok doc) => loadDoc doc

/-- A React-Flow `Connection` as delivered to `onConnect`: source/target
node ids plus nullable handle ids. -/
structure ConnParams where
  source : String
  sourceHandle : Option String
  target : String
  targetHandle : Option String
deriving DecidableEq

/-- JS falsiness of a nullable handle (`!h`): null/undefined or `""`. -/
def falsyHandle : Option String → Bool
  | none => true
  | some s => s == ""

/-- Handle comparison used by `addEdge`'s duplicate check:
`a === b || (!a && !b)`. -/
def handleEq (a b : Option String) : Bool :=
  a == b || (falsyHandle a && falsyHandle b)

/-- The edge id `addEdge` generates:
`xy-edge__${source}${sourceHandle || ''}-${target}${targetHandle || ''}`. -/
def edgeId (p : ConnParams) : String :=
  "xy-edge__" ++ p.source ++ p.sourceHandle.getD "" ++ "-"
    ++ p.target ++ p.targetHandle.getD ""

/-- The edge object `addEdge` builds from connection params. -/
def mkEdge (p : ConnParams) : EdgeT :=
  ⟨edgeId p, p.source, p.target, p.sourceHandle, p.targetHandle⟩

/-- `connectionExists` of `@xyflow/react`: an edge with the same source,
target and (falsiness-insensitive) handles is already present. -/
def connectionExists (p : ConnParams) (es : List EdgeT) : Bool :=
  es.any fun e =>
    e.source == p.source && e.target == p.target
      && handleEq e.sourceHandle p.sourceHandle && handleEq e.targetHandle p.targetHandle

/-- `addEdge` of `@xyflow/react` (third-party collaborator used by
`onConnect`, FlowEditor.tsx lines 45–48), modelled from its implementation:
ignore params with falsy source or target, drop exact duplicates, otherwise
append the new edge.  No node-existence validation is performed. -/
def addEdge (p : ConnParams) (es : List EdgeT) : List EdgeT :=
  if p.source == "" || p.target == "" then es
  else if connectionExists p es then es
  else es ++ [mkEdge p]

/-- Decimal representation of a natural number, modelling the JS
number-to-string conversion applied to the integer counter by the
template literal in `addNode`. -/
def natRepr (n : Nat) : String :=
  if n = 0 then "0" else ⟨((Nat.digits 10 n).map Nat.digitChar).reverse⟩

/-- The id the template literal `` `node-${++nodeId}` `` produces once the
counter has been incremented to `c`. -/
def mkNodeId (c : Nat) : String :=
  "node-" ++ natRepr c

/-- The node `addNode` creates when the incremented counter is `c`; the
`Math.random()`-derived coordinates enter as oracle inputs. -/
def newNode (c : Nat) (px py : Int) : NodeT :=
  ⟨mkNodeId c, "custom", ⟨px, py⟩, ⟨"Node " ++ natRepr c, ""⟩⟩

/-- Whole-system state: the two React state variables, the module-level
`nodeId` counter, and the `mindflow-data` localStorage slot. -/
structure Sys where
  state : EditorState
  counter : Nat
  store : Option Blob

/-- The public operations of the editor's toolbar plus edge connection;
`addNode`'s random position is an explicit input. -/
inductive Op where
  | addNode (px py : Int)
  | connect (p : ConnParams)
  | save
  | load
  | clear

/-- One user action.  `load` leaves the state untouched when the slot is
empty (`noop`) or when an exception escapes before `setNodes` runs
(`threw`); the `untyped` branch is outside the typed fragment and never
reachable from blobs this component writes. -/
def step (sys : Sys) : Op → Sys
  | .addNode px py =>
    let c := sys.counter + 1
    { sys with counter := c,
               state := { sys.state with nodes := sys.state.nodes ++ [newNode c px py] } }
  | .connect p =>
    { sys with state := { sys.state with edges := addEdge p sys.state.edges } }
  | .save => { sys with store := some (saveBlob sys.state) }
  | .load =>
    match loadFlow sys.store with
    | .loaded st => { sys with state := st }
    | _ => sys
  | .clear => { sys with state := ⟨[], []⟩ }

/-- Run a sequence of user actions. -/
def run (sys : Sys) (ops : List Op) : Sys :=
  ops.foldl step sys

/-- The initial system: the literal `initialNodes` and `initialEdges`,
`let nodeId = 1`, and nothing yet persisted. -/
def initSys : Sys :=
  { state := ⟨[⟨"node-1", "custom", ⟨250, 100⟩, ⟨"Node 1", ""⟩⟩], []⟩,
    counter := 1,
    store := none }

/-- A fresh page load: the module re-evaluates, resetting the React
state to `initialNodes` / `initialEdges` and the counter back to
`let nodeId = 1`, while the `mindflow-data` localStorage slot survives
the reload.  (`initSys` is the very first session, with an empty slot.) -/
def startSession (store : Option Blob) : Sys :=
  { state := ⟨[⟨"node-1", "custom", ⟨250, 100⟩, ⟨"Node 1", ""⟩⟩], []⟩,
    counter := 1,
    store := store }

/-- The ids `addNode` assigns along a run whose counter starts at `c`
(only `addNode` touches the counter). -/
def assignedIds (c : Nat) : List Op → List String
  | [] => []
  | .addNode _ _ :: ops => mkNodeId (c + 1) :: assignedIds (c + 1) ops
  | _ :: ops => assignedIds c ops

/-- The node ids of an editor state. -/
def nodeIds (st : EditorState) : List String :=
  st.nodes.map NodeT.id

/-- Number of edges entering a given target node / target handle slot. -/
def incoming (target : String) (th : Option String) (es : List EdgeT) : Nat :=
  (es.filter fun e => e.target == target && e.targetHandle == th).length

/-- Top-level keys of a persisted document. -/
def docKeys : JVal → List String
  | .obj kvs => kvs.map Prod.fst
  | _ => []

/-- Left inverse of `Nat.digitChar` on decimal digits. -/
def charDigit (c : Char) : Nat := c.toNat - 48

/-- Id discipline of a node collection relative to the counter value `c`:
pairwise distinct, and every id was produced by the id template at some
counter value in `1..c`.  (`"node-1"` itself is `mkNodeId 1`.) -/
def goodIds (c : Nat) (ids : List String) : Prop :=
  ids.Nodup ∧ ∀ i ∈ ids, ∃ j, 0 < j ∧ j ≤ c ∧ i = mkNodeId j

/-- Every blob reachable in the `mindflow-data` slot was written by
`saveFlow`, and the node ids it froze obey the id discipline. -/
def storeOK (c : Nat) : Option Blob → Prop
  | none => True
  | some b => ∃ ns es, b = saveBlob ⟨ns, es⟩ ∧ goodIds c (ns.map NodeT.id)

/-- Reachability invariant of the whole system. -/
def Inv (sys : Sys) : Prop :=
  goodIds sys.counter (nodeIds sys.state) ∧ storeOK sys.counter sys.store

/-! ### Round-trip lemmas for the persisted document -/

theorem decodeNode_nodeJson (n : NodeT) : decodeNode (nodeJson n) = some n := rfl

theorem decodeEdge_edgeJson (e : EdgeT) : decodeEdge (edgeJson e) = some e := by
  cases e with
  | mk i s t sh th => cases sh <;> cases th <;> rfl

theorem decodeNodeList_map (ns : List NodeT) :
    decodeNodeList (ns.map nodeJson) = some ns := by
  induction ns with
  | nil => rfl
  | cons n ns ih => simp [decodeNodeList, decodeNode_nodeJson, ih]

theorem decodeEdgeList_map (es : List EdgeT) :
    decodeEdgeList (es.map edgeJson) = some es := by
  induction es with
  | nil => rfl
  | cons e es ih => simp [decodeEdgeList, decodeEdge_edgeJson, ih]

theorem loadDoc_saveDoc (st : EditorState) : loadDoc (saveDoc st) = .loaded st := by
  simp [loadDoc, saveDoc, fieldOrEmpty, List.lookup, truthy, decodeNodes, decodeEdges,
    decodeNodeList_map, decodeEdgeList_map]

theorem loadFlow_saveBlob (st : EditorState) :
    loadFlow (some (saveBlob st)) = .loaded st := loadDoc_saveDoc st

/-! ### Injectivity of the generated node ids -/

theorem charDigit_digitChar : ∀ d < 10, charDigit (Nat.digitChar d) = d := by decide

theorem map_digitChar_cancel {l : List Nat} (h : ∀ d ∈ l, d < 10) :
    (l.map Nat.digitChar).map charDigit = l := by
  rw [List.map_map]
  conv_rhs => rw [← List.map_id l]
  exact List.map_congr_left fun d hd => charDigit_digitChar d (h d hd)

theorem digits_lt_ten {n : Nat} : ∀ d ∈ Nat.digits 10 n, d < 10 :=
  fun _ hd => Nat.digits_lt_base (by norm_num) hd

theorem natRepr_injective : Function.Injective natRepr := by
  intro a b h
  unfold natRepr at h
  by_cases ha : a = 0 <;> by_cases hb : b = 0
  · omega
  · exfalso
    rw [if_pos ha, if_neg hb] at h
    have h0 : (['0'] : List Char) = ((Nat.digits 10 b).map Nat.digitChar).reverse :=
      congrArg String.data h
    have h1 : (Nat.digits 10 b).map Nat.digitChar = ['0'] := by
      have := congrArg List.reverse h0
      simpa using this.symm
    have h2 : Nat.digits 10 b = [0] := by
      have := congrArg (List.map charDigit) h1
      rwa [map_digitChar_cancel digits_lt_ten] at this
    have : b = 0 := by
      have := Nat.ofDigits_digits 10 b
      rw [h2] at this
      simpa [Nat.ofDigits] using this.symm
    exact hb this
  · exfalso
    rw [if_neg ha, if_pos hb] at h
    have h0 : ((Nat.digits 10 a).map Nat.digitChar).reverse = (['0'] : List Char) :=
      congrArg String.data h
    have h1 : (Nat.digits 10 a).map Nat.digitChar = ['0'] := by
      have := congrArg List.reverse h0
      simpa using this
    have h2 : Nat.digits 10 a = [0] := by
      have := congrArg (List.map charDigit) h1
      rwa [map_digitChar_cancel digits_lt_ten] at this
    have : a = 0 := by
      have := Nat.ofDigits_digits 10 a
      rw [h2] at this
      simpa [Nat.ofDigits] using this.symm
    exact ha this
  · rw [if_neg ha, if_neg hb] at h
    have h0 : ((Nat.digits 10 a).map Nat.digitChar).reverse
        = ((Nat.digits 10 b).map Nat.digitChar).reverse := by
      have := congrArg String.data h
      simpa using this
    have h1 : (Nat.digits 10 a).map Nat.digitChar = (Nat.digits 10 b).map Nat.digitChar := by
      have := congrArg List.reverse h0
      simpa using this
    have h2 : Nat.digits 10 a = Nat.digits 10 b := by
      have := congrArg (List.map charDigit) h1
      rwa [map_digitChar_cancel digits_lt_ten, map_digitChar_cancel digits_lt_ten] at this
    exact Nat.digits.injective 10 h2

theorem mkNodeId_injective : Function.Injective mkNodeId := by
  intro a b h
  have h2 : "node-".data ++ (natRepr a).data = "node-".data ++ (natRepr b).data := by
    have := congrArg String.data h
    simpa [mkNodeId, String.data_append] using this
  have h3 : (natRepr a).data = (natRepr b).data := List.append_cancel_left h2
  exact natRepr_injective (String.ext h3)

theorem natRepr_one : natRepr 1 = "1" := by
  rw [natRepr, if_neg (by norm_num), Nat.digits_of_lt 10 1 (by norm_num) (by norm_num)]
  rfl

theorem mkNodeId_one : mkNodeId 1 = "node-1" := by
  rw [mkNodeId, natRepr_one]
  rfl

theorem natRepr_two : natRepr 2 = "2" := by
  rw [natRepr, if_neg (by norm_num), Nat.digits_of_lt 10 2 (by norm_num) (by norm_num)]
  rfl

theorem mkNodeId_two : mkNodeId 2 = "node-2" := by
  rw [mkNodeId, natRepr_two]
  rfl

/-! ### Preservation of the id discipline -/

theorem goodIds_mono {c c' : Nat} (h : c ≤ c') {ids : List String} :
    goodIds c ids → goodIds c' ids := by
  rintro ⟨hnd, hb⟩
  refine ⟨hnd, fun i hi => ?_⟩
  obtain ⟨j, hj0, hjc, rfl⟩ := hb i hi
  exact ⟨j, hj0, hjc.trans h, rfl⟩

theorem storeOK_mono {c c' : Nat} (h : c ≤ c') {s : Option Blob} :
    storeOK c s → storeOK c' s := by
  cases s with
  | none => intro; trivial
  | some b =>
    rintro ⟨ns, es, rfl, hg⟩
    exact ⟨ns, es, rfl, goodIds_mono h hg⟩

theorem step_inv {sys : Sys} (h : Inv sys) (op : Op) : Inv (step sys op) := by
  obtain ⟨⟨hnd, hb⟩, hs⟩ := h
  cases op with
  | addNode px py =>
    refine ⟨⟨?_, ?_⟩, storeOK_mono (Nat.le_succ _) hs⟩
    · rw [step]
      simp only [nodeIds, List.map_append, List.nodup_append] at *
      refine ⟨hnd, by simp, ?_⟩
      simp only [newNode, List.map_cons, List.map_nil]
      intro i hi
      obtain ⟨j, hj0, hjc, rfl⟩ := hb i hi
      simp only [List.mem_singleton]
      intro hEq
      have := mkNodeId_injective hEq
      omega
    · rw [step]
      simp only [nodeIds, List.map_append]
      intro i hi
      rcases List.mem_append.mp hi with hi | hi
      · obtain ⟨j, hj0, hjc, rfl⟩ := hb i hi
        exact ⟨j, hj0, by omega, rfl⟩
      · simp only [newNode, List.map_cons, List.map_nil, List.mem_singleton] at hi
        exact ⟨sys.counter + 1, by omega, by omega, hi⟩
  | connect p => exact ⟨⟨hnd, hb⟩, hs⟩
  | save =>
    exact ⟨⟨hnd, hb⟩, sys.state.nodes, sys.state.edges, rfl, ⟨hnd, hb⟩⟩
  | load =>
    cases hstore : sys.store with
    | none => simp only [step, hstore, loadFlow]; exact ⟨⟨hnd, hb⟩, by rw [hstore]; trivial⟩
    | some b =>
      rw [hstore] at hs
      obtain ⟨ns, es, rfl, hg⟩ := hs
      have : step sys .load = { sys with state := ⟨ns, es⟩ } := by
        rw [step, hstore, loadFlow_saveBlob]
      rw [this]
      refine ⟨hg, ?_⟩
      rw [hstore]
      exact ⟨ns, es, rfl, hg⟩
  | clear =>
    refine ⟨⟨?_, ?_⟩, hs⟩ <;> simp [step, nodeIds]

theorem run_inv {sys : Sys} (h : Inv sys) (ops : List Op) : Inv (run sys ops) := by
  induction ops generalizing sys with
  | nil => exact h
  | cons op ops ih => exact ih (step_inv h op)

theorem inv_initSys : Inv initSys := by
  refine ⟨⟨by simp [initSys, nodeIds], ?_⟩, trivial⟩
  intro i hi
  simp only [initSys, nodeIds, List.map_cons, List.map_nil, List.mem_singleton] at hi
  exact ⟨1, by omega, by simp [initSys], by rw [hi, mkNodeId_one]⟩

theorem assignedIds_good (ops : List Op) :
    ∀ c, (assignedIds c ops).Nodup ∧ ∀ i ∈ assignedIds c ops, ∃ j, c < j ∧ i = mkNodeId j := by
  induction ops with
  | nil => intro c; exact ⟨List.nodup_nil, by simp [assignedIds]⟩
  | cons op ops ih =>
    intro c
    cases op with
    | addNode px py =>
      obtain ⟨hnd, hb⟩ := ih (c + 1)
      refine ⟨List.nodup_cons.mpr ⟨?_, hnd⟩, ?_⟩
      · intro hmem
        obtain ⟨j, hj, hEq⟩ := hb _ hmem
        have := mkNodeId_injective hEq
        omega
      · intro i hi
        rcases List.mem_cons.mp hi with rfl | hi
        · exact ⟨c + 1, by omega, rfl⟩
        · obtain ⟨j, hj, rfl⟩ := hb i hi
          exact ⟨j, by omega, rfl⟩
    | connect p => exact ih c
    | save => exact ih c
    | load => exact ih c
    | clear => exact ih c

/-! ### Behaviour of the toolbar operation sequences -/

theorem run_save_load (sys : Sys) : (run sys [Op.save, Op.load]).state = sys.state := by
  simp [run, step, loadFlow_saveBlob]

theorem run_save_clear_load (sys : Sys) :
    (run sys [Op.save, Op.clear, Op.load]).state = sys.state := by
  simp [run, step, loadFlow_saveBlob]

theorem addEdge_append {es : List EdgeT} {p : ConnParams}
    (hs : p.source ≠ "") (ht : p.target ≠ "")
    (hdup : connectionExists p es = false) :
    addEdge p es = es ++ [mkEdge p] := by
  simp [addEdge, hs, ht, hdup]

/-! ### The claims -/

/-- C1: for every in-memory editor state, loading the blob the save path
wrote restores exactly the saved nodes and edges — both as a statement
about the persisted blob and as a statement about the save-then-load
action sequence.  (The persisted state carries no `updated_at`, so the
round trip is exact equality.) -/
theorem claim_C1_roundtrip (sys : Sys) :
    loadFlow (some (saveBlob sys.state)) = .loaded sys.state
      ∧ (run sys [Op.save, Op.load]).state = sys.state :=
  ⟨loadFlow_saveBlob sys.state, run_save_load sys⟩

/-- C2 (code bug evidence): on a persisted blob that does not parse as
JSON, `loadFlow` lets the `JSON.parse` exception escape — the load
operation terminates in an unhandled exception instead of returning a
`MalformedDocument` error (no such error value exists in the code). -/
theorem claim_C2_malformed_throws :
    loadFlow (some (.malformed "not json")) = .threw := rfl

/-- C3 counterexample: the persisted document with no fields at all —
`id`, `name`, `nodes` and `connections` all absent — loads successfully
as the empty flow; deserialization does not fail with
`MissingRequiredField` (no such error exists in the code). -/
theorem claim_C3_counterexample :
    loadFlow (some (.ok (.obj []))) = .loaded ⟨[], []⟩ := rfl

/-- C3 amended: deserialization never requires any field.  A parsed
document with neither a `nodes` nor an `edges` key yields the empty
flow (both collections default to empty), and `id` / `name` are never
read at all. -/
theorem claim_C3_amended (kvs : List (String × JVal))
    (hn : kvs.lookup "nodes" = none) (he : kvs.lookup "edges" = none) :
    loadFlow (some (.ok (.obj kvs))) = .loaded ⟨[], []⟩ := by
  simp [loadFlow, loadDoc, fieldOrEmpty, hn, he, decodeNodes, decodeEdges,
    decodeNodeList, decodeEdgeList]

/-- Witness for C3 amended at the empty document. -/
theorem claim_C3_witness :
    (([] : List (String × JVal)).lookup "nodes" = none)
      ∧ (([] : List (String × JVal)).lookup "edges" = none)
      ∧ loadFlow (some (.ok (.obj []))) = .loaded ⟨[], []⟩ :=
  ⟨rfl, rfl, claim_C3_amended [] rfl rfl⟩

/-- C4: a persisted document that parses, carries a decodable node
collection, and has no edge-collection key (`edges`, the code's name for
the connection set) loads successfully with an empty edge set. -/
theorem claim_C4_missing_edges (kvs : List (String × JVal)) (ns : List NodeT)
    (he : kvs.lookup "edges" = none)
    (hn : decodeNodes (fieldOrEmpty kvs "nodes") = some ns) :
    loadFlow (some (.ok (.obj kvs))) = .loaded ⟨ns, []⟩ := by
  simp [loadFlow, loadDoc, hn]
  simp [fieldOrEmpty, he, decodeEdges, decodeEdgeList]

/-- Witness for C4 at the document holding an empty node array and no
edges key. -/
theorem claim_C4_witness :
    (([("nodes", JVal.arr [])] : List (String × JVal)).lookup "edges" = none)
      ∧ decodeNodes (fieldOrEmpty [("nodes", JVal.arr [])] "nodes") = some []
      ∧ loadFlow (some (.ok (.obj [("nodes", JVal.arr [])]))) = .loaded ⟨[], []⟩ :=
  ⟨rfl, rfl, claim_C4_missing_edges _ _ rfl rfl⟩

/-- C5 counterexample: in the initial state (whose only node id is
`node-1`), connecting from the nonexistent source node `ghost` is not
rejected — the edge is appended and the edge set changes. -/
theorem claim_C5_counterexample :
    ("ghost" ∉ nodeIds initSys.state)
      ∧ (step initSys (.connect ⟨"ghost", none, "node-1", none⟩)).state.edges
          = [⟨"xy-edge__ghost-node-1", "ghost", "node-1", none, none⟩] :=
  ⟨by decide, rfl⟩

/-- C5 amended: `onConnect` performs no referential validation.  Every
connection whose source and target ids are non-empty and which does not
exactly duplicate an existing edge is appended to the edge set,
regardless of whether its endpoints name nodes of the flow; no
`UnknownSourceNode` / `UnknownTargetNode` rejection exists. -/
theorem claim_C5_amended (sys : Sys) (p : ConnParams)
    (hs : p.source ≠ "") (ht : p.target ≠ "")
    (hdup : connectionExists p sys.state.edges = false) :
    (step sys (.connect p)).state.edges = sys.state.edges ++ [mkEdge p] := by
  simp [step, addEdge_append hs ht hdup]

/-- Witness for C5 amended: connecting two nonexistent nodes in the
initial state appends the edge. -/
theorem claim_C5_witness :
    (("a" : String) ≠ "") ∧ (("b" : String) ≠ "")
      ∧ connectionExists ⟨"a", none, "b", none⟩ initSys.state.edges = false
      ∧ (step initSys (.connect ⟨"a", none, "b", none⟩)).state.edges
          = initSys.state.edges ++ [mkEdge ⟨"a", none, "b", none⟩] :=
  ⟨by decide, by decide, rfl,
    claim_C5_amended initSys ⟨"a", none, "b", none⟩ (by decide) (by decide) rfl⟩

/-- C6 counterexample: a target input slot already holding one incoming
edge receives a second, distinct incoming edge — the connect operation
neither replaces the existing edge nor rejects the new one, and the slot
ends up with two incoming connections. -/
theorem claim_C6_counterexample :
    incoming "node-2" none [mkEdge ⟨"node-1", none, "node-2", none⟩] = 1
      ∧ (step { state := ⟨[], [mkEdge ⟨"node-1", none, "node-2", none⟩]⟩,
                counter := 1, store := none }
            (.connect ⟨"node-3", none, "node-2", none⟩)).state.edges
          = [mkEdge ⟨"node-1", none, "node-2", none⟩, mkEdge ⟨"node-3", none, "node-2", none⟩]
      ∧ incoming "node-2" none
          [mkEdge ⟨"node-1", none, "node-2", none⟩, mkEdge ⟨"node-3", none, "node-2", none⟩]
          = 2 :=
  ⟨rfl, rfl, rfl⟩

/-- C6 amended: adding a connection whose source and target are
non-empty and which does not exactly duplicate an existing edge always
increments the incoming-edge count of its target input slot — occupied
slots accumulate further edges (no replacement, no rejection), so a slot
can hold arbitrarily many incoming connections. -/
theorem claim_C6_amended (es : List EdgeT) (p : ConnParams)
    (hs : p.source ≠ "") (ht : p.target ≠ "")
    (hdup : connectionExists p es = false) :
    incoming p.target p.targetHandle (addEdge p es)
      = incoming p.target p.targetHandle es + 1 := by
  rw [addEdge_append hs ht hdup, incoming, incoming, List.filter_append]
  simp [mkEdge]

/-- Witness for C6 amended on the empty edge set. -/
theorem claim_C6_witness :
    (("a" : String) ≠ "") ∧ (("b" : String) ≠ "")
      ∧ connectionExists ⟨"a", none, "b", none⟩ [] = false
      ∧ incoming "b" none (addEdge ⟨"a", none, "b", none⟩ [])
          = incoming "b" none [] + 1 :=
  ⟨by decide, by decide, rfl,
    claim_C6_amended [] ⟨"a", none, "b", none⟩ (by decide) (by decide) rfl⟩

/-- C7 (code bug evidence): node ids ARE reused across sessions.  The
module-level counter `let nodeId = 1` resets on every page load while
the `mindflow-data` slot persists, so after session one does
add-node-then-save, a reloaded session that loads the blob and adds a
node assigns `node-2` a second time: the current flow holds the
duplicate id list `["node-1", "node-2", "node-2"]`.  (Within a single
session the discipline does hold — see `run_inv` / `assignedIds_good` —
but the claim's "never assigned again" fails at the first reload.) -/
theorem claim_C7_id_reuse :
    nodeIds (run (startSession (run initSys [Op.addNode 0 0, Op.save]).store)
        [Op.load, Op.addNode 0 0]).state = ["node-1", "node-2", "node-2"]
      ∧ ¬ (["node-1", "node-2", "node-2"] : List String).Nodup := by
  refine ⟨?_, by decide⟩
  simp [run, step, startSession, initSys, loadFlow_saveBlob, nodeIds, newNode, mkNodeId_two]

/-- C8 counterexample: the blob the save path writes for the initial
state has exactly the top-level keys `nodes` and `edges`; none of the
Flow-level fields — in particular `id` and `version` — appears. -/
theorem claim_C8_counterexample :
    docKeys (saveDoc initSys.state) = ["nodes", "edges"]
      ∧ "id" ∉ docKeys (saveDoc initSys.state)
      ∧ "version" ∉ docKeys (saveDoc initSys.state) :=
  ⟨rfl, by decide, by decide⟩

/-- C8 amended: for every editor state the persisted document contains
exactly the two fields `nodes` and `edges`, each exactly once; no
Flow-level field (`id`, `name`, `version`, `metadata`, `created_at`,
`updated_at`, `is_readonly`) is persisted. -/
theorem claim_C8_amended (st : EditorState) :
    docKeys (saveDoc st) = ["nodes", "edges"] := rfl

/-- C9: when the persistence slot holds nothing, the load operation is a
no-op on the whole system — nodes and edges stay exactly as they were. -/
theorem claim_C9_empty_store_noop (sys : Sys) (h : sys.store = none) :
    step sys .load = sys := by
  simp [step, h, loadFlow]

/-- Witness for C9 at the initial system, whose slot is empty. -/
theorem claim_C9_witness :
    initSys.store = none ∧ step initSys .load = initSys :=
  ⟨rfl, claim_C9_empty_store_noop initSys rfl⟩

/-- C10: clear empties the in-memory node and edge sets while leaving
the persisted blob untouched, and save-then-clear-then-load restores
exactly the saved nodes and edges. -/
theorem claim_C10_clear_then_reload (sys : Sys) :
    (step sys .clear).state.nodes = []
      ∧ (step sys .clear).state.edges = []
      ∧ (step sys .clear).store = sys.store
      ∧ (run sys [Op.save, Op.clear, Op.load]).state = sys.state :=
  ⟨rfl, rfl, rfl, run_save_clear_load sys⟩

end Mindflow
